/-
Verification of the CXP client/environment controller module
(src/app/backend/cxp.ts) against its natural-language specification.

The file shallowly embeds the TypeScript source: the repository file holds
two revisions of the module; where they differ (the tcp bridging base URL)
we follow the later revision (lines 350-694), which the specification
describes.  JavaScript values are modelled as follows: a `string | null`
field becomes `Option String`; `x || ''` becomes a function that maps the
falsy values (null, empty string) to the empty string; a
`T | null | ErrorLike` manifest becomes a three-constructor inductive.
-/
import Mathlib

namespace Cxp

/-- Model of the `ErrorLike` values produced by manifest fetch/parse
failures (src/app/backend/errors.ts): carries a message. -/
structure ErrorLike where
  message : String
deriving DecidableEq, Repr

/-- The platform descriptor of a `SourcegraphExtension` manifest: a tagged
record whose `type` field selects the transport strategy
(websocket / tcp / bundle / anything else). -/
structure Platform where
  type : String
  url : Option String
deriving DecidableEq, Repr

/-- The part of a `SourcegraphExtension` manifest the module reads:
`activationEvents` (optional in the schema, hence `Option`) and the
platform descriptor. -/
structure SourcegraphExtension where
  activationEvents : Option (List String)
  platform : Platform
deriving DecidableEq, Repr

/-- The manifest field of a configured extension:
`SourcegraphExtension | null | ErrorLike`. -/
inductive ManifestOrError where
  | null
  | valid (m : SourcegraphExtension)
  | errorLike (e : ErrorLike)
deriving DecidableEq, Repr

/-- The JavaScript `isErrorLike` test on the manifest field. -/
def ManifestOrError.isErrorLike : ManifestOrError → Bool
  | .errorLike _ => true
  | _ => false

/-- The JavaScript truthiness test `!!x.manifest` (only `null` is falsy;
error objects and valid manifests are truthy). -/
def ManifestOrError.isTruthy : ManifestOrError → Bool
  | .null => false
  | _ => true

/-- A configured extension as used by the module
(`CXPExtensionWithManifest`): extension id, enablement flag and
manifest-or-error.  The opaque merged-settings value is not read by any
code under verification and is omitted. -/
structure CXPExtensionWithManifest where
  id : String
  isEnabled : Bool
  manifest : ManifestOrError
deriving DecidableEq, Repr

/-- The active document of an environment component: only its
`languageId` is read by the module. -/
structure Document where
  languageId : String
deriving DecidableEq, Repr

/-- The active component of an environment snapshot. -/
structure Component where
  document : Document
deriving DecidableEq, Repr

/-- An environment snapshot `Environment<CXPExtensionWithManifest>`:
root context URI or null, active component or null, and the configured
extension list (nullable in the TypeScript type, guarded by
`nextEnvironment.extensions && ...`). -/
structure Environment where
  root : Option String
  component : Option Component
  extensions : Option (List CXPExtensionWithManifest)
deriving DecidableEq, Repr

/-- The activation test the filter applies to one extension
(the body of the arrow function passed to `.filter` in
`environmentFilter`):
`x.isEnabled && x.manifest && !isErrorLike(x.manifest) &&
 x.manifest.activationEvents` guards
`x.manifest.activationEvents.some(e => e === '*' ||
 (!!component && e === onLanguage:languageId))`;
every other path returns `false`. -/
def environmentFilterPredicate (component : Option Component)
    (x : CXPExtensionWithManifest) : Bool :=
  match x.manifest with
  | ManifestOrError.valid m =>
    match m.activationEvents with
    | some evs =>
      x.isEnabled && evs.any fun e =>
        e == "*" ||
          (match component with
           | some c => e == ("onLanguage:" ++ c.document.languageId)
           | none => false)
    | none => false
  | _ => false

/-- Errors thrown while evaluating one extension's activation events
(the `catch (err)` in `environmentFilter`). -/
structure EvaluationError where
  message : String
deriving DecidableEq, Repr

/-- The `try { ... } catch (err) { console.error(err); } return false`
wrapper around the per-extension activation test: an evaluation that
throws is treated as `false` (exclude). -/
def catchToExclude (eval : CXPExtensionWithManifest → Except EvaluationError Bool)
    (x : CXPExtensionWithManifest) : Bool :=
  match eval x with
  | Except.ok b => b
  | Except.error _ => false

/-- `environmentFilter` with the per-extension evaluation abstracted as a
possibly-throwing function, mirroring the try/catch structure of the
source: the result is a total function (the filter itself never throws),
and a throwing evaluation excludes only that extension. -/
def environmentFilterWith
    (eval : Option Component → CXPExtensionWithManifest → Except EvaluationError Bool)
    (env : Environment) : Environment :=
  { env with
    extensions := env.extensions.map fun exts =>
      exts.filter (catchToExclude (eval env.component)) }

/-- The concrete `environmentFilter` of the source: keeps the snapshot
and replaces `extensions` with the activation-filtered list (a null
extension list passes through as null). -/
def environmentFilter (env : Environment) : Environment :=
  environmentFilterWith
    (fun component x => Except.ok (environmentFilterPredicate component x)) env

/-- The filtered extension list of a snapshot, defaulting to `[]` when
the snapshot's extension list is null. -/
def filteredExtensions (env : Environment) : List CXPExtensionWithManifest :=
  ((environmentFilter env).extensions).getD []

/-- `JSON.stringify` applied to a plain string, as used in the error
messages of `createMessageTransports` (quoting only; escaping of special
characters inside the id is not modelled). -/
def jsonStringify (s : String) : String :=
  "\"" ++ s ++ "\""

/-- The JavaScript expression `x || ''` on a `string | null` value: the
falsy values `null` and `''` both yield `''`. -/
def jsOrEmpty : Option String → String
  | none => ""
  | some s => if s == "" then "" else s

/-- The pieces of a WHATWG `URL` object the module reads and writes:
protocol (with trailing colon, e.g. `"https:"`), host, pathname and the
search parameter list in order. -/
structure URL where
  protocol : String
  host : String
  pathname : String
  searchParams : List (String × String)
deriving DecidableEq, Repr

/-- `URLSearchParams.set(k, v)`: replaces the first pair with key `k` by
`(k, v)` and drops any later pairs with that key; appends when the key is
absent. -/
def setParam : List (String × String) → String → String → List (String × String)
  | [], k, v => [(k, v)]
  | (k', v') :: rest, k, v =>
    if k' == k then (k, v) :: rest.filter (fun p => p.fst != k)
    else (k', v') :: setParam rest k v

/-- `URLSearchParams.get(k)`: the value of the first pair with key `k`. -/
def getParam (ps : List (String × String)) (k : String) : Option String :=
  (ps.find? (fun p => p.fst == k)).map Prod.snd

/-- The tcp-bridging URL construction of `createMessageTransports`:
starting from the configured Sourcegraph base URL, switch the protocol to
its WebSocket equivalent (`https:` becomes `wss:`, anything else `ws:`),
fix the pathname to the `.api/lsp` bridge endpoint (pathname
normalisation by the `URL` object is not modelled) and set the `mode` and
`rootUri` query parameters. -/
def bridgeWebSocketURL (base : URL) (extensionID : String)
    (root : Option String) : URL :=
  { base with
    protocol := if base.protocol == "https:" then "wss:" else "ws:"
    pathname := ".api/lsp"
    searchParams :=
      setParam (setParam base.searchParams "mode" extensionID)
        "rootUri" (jsOrEmpty root) }

/-- The `ClientOptions` fields read by the transport factory: the
connection's root URI or null. -/
structure ClientOptions where
  root : Option String
deriving DecidableEq, Repr

/-- The network/IPC resource a successful `createMessageTransports` call
opens: either a relay request over the control channel (websocket and
bundle kinds, answered by a dedicated port) or a direct WebSocket to the
bridged URL (tcp kind). -/
inductive TransportAction where
  | relayRequest (extensionID : String) (platform : Platform)
  | webSocket (url : URL)
deriving DecidableEq, Repr

/-- `createMessageTransports` (later revision, lines 579-624): a thrown
error or rejected promise is an `Except.error` carrying the message; a
success is the resource-opening action.  The first value of
`sourcegraphURLSubject`, which the tcp branch awaits, is passed as the
`sourcegraphURL` argument. -/
def createMessageTransports (sourcegraphURL : URL)
    (extension : CXPExtensionWithManifest) (options : ClientOptions) :
    Except String TransportAction :=
  match extension.manifest with
  | ManifestOrError.null =>
    Except.error ("unable to connect to extension " ++
      jsonStringify extension.id ++ ": no manifest found")
  | ManifestOrError.errorLike e =>
    Except.error ("unable to connect to extension " ++
      jsonStringify extension.id ++ ": invalid manifest: " ++ e.message)
  | ManifestOrError.valid m =>
    if m.platform.type == "websocket" then
      Except.ok (TransportAction.relayRequest extension.id m.platform)
    else if m.platform.type == "tcp" then
      Except.ok (TransportAction.webSocket
        (bridgeWebSocketURL sourcegraphURL extension.id options.root))
    else if m.platform.type == "bundle" then
      Except.ok (TransportAction.relayRequest extension.id m.platform)
    else
      Except.error ("Unable to connect to CXP extension " ++
        jsonStringify extension.id ++ ": type " ++
        jsonStringify m.platform.type ++ " is not supported")

/-- The payload of a message arriving on the control channel:
`{ portName }` on success, `{ error }` on failure. -/
inductive RelayPayload where
  | portName (name : String)
  | error (message : String)
deriving DecidableEq, Repr

/-- An inbound control-channel message, together with the ghost field
`intendedFor` recording which extension's request the host-side broker
was answering (not part of the wire format, which carries no correlation
token). -/
structure RelayResponse where
  intendedFor : String
  payload : RelayPayload
deriving DecidableEq, Repr

/-- One serialized event on the shared control channel: a call to
`createPlatformMessageTransports` posts a request (and registers a new
`onMessage` listener), or an inbound message arrives. -/
inductive RelayEvent where
  | request (extensionID : String)
  | response (r : RelayResponse)
deriving DecidableEq, Repr

/-- The first inbound control-channel message in a trace suffix. -/
def firstResponseAfter : List RelayEvent → Option RelayResponse
  | [] => none
  | RelayEvent.response r :: _ => some r
  | RelayEvent.request _ :: rest => firstResponseAfter rest

/-- What settles the promise of the request at position `i` of a
control-channel trace.  `createPlatformMessageTransports` registers its
`onMessage` listener when the request is posted and every listener fires
on every inbound message, so the promise is settled by the first message
that arrives after registration, whichever request the broker meant it
for. -/
def settlement (trace : List RelayEvent) (i : Nat) : Option RelayResponse :=
  firstResponseAfter (trace.drop (i + 1))

/-- An observable chrome-port effect of the module: opening a port via
`chrome.runtime.connect` (ports are numbered by allocation order) or
posting a transport request on an open port. -/
inductive ChromeEffect where
  | connect (channelId : Nat) (name : String)
  | postMessage (channelId : Nat) (extensionID : String)
deriving DecidableEq, Repr

/-- The allocation index of the control channel: it is the first port the
module opens. -/
def controlChannelId : Nat := 0

/-- The effects of module initialisation: the IIFE around
`createPlatformMessageTransports` runs once at module load and opens the
single `CONTROL` port. -/
def moduleInitEffects : List ChromeEffect :=
  [ChromeEffect.connect controlChannelId "CONTROL"]

/-- The chrome-port effects of a control-channel event sequence, with
`fresh` counting ports already allocated after the control port: a
request posts on the captured control port and opens nothing; a
successful response opens the dedicated port named in it; an error
response opens nothing. -/
def sessionEffects : List RelayEvent → Nat → List ChromeEffect
  | [], _ => []
  | RelayEvent.request id :: rest, fresh =>
    ChromeEffect.postMessage controlChannelId id :: sessionEffects rest fresh
  | RelayEvent.response r :: rest, fresh =>
    match r.payload with
    | RelayPayload.portName p =>
      ChromeEffect.connect (fresh + 1) p :: sessionEffects rest (fresh + 1)
    | RelayPayload.error _ => sessionEffects rest fresh

/-- All chrome-port effects of a process lifetime with the given
control-channel event sequence. -/
def processEffects (events : List RelayEvent) : List ChromeEffect :=
  moduleInitEffects ++ sessionEffects events 0

/-- Whether an effect opens the control channel. -/
def ChromeEffect.isControlConnect : ChromeEffect → Bool
  | ChromeEffect.connect i _ => i == controlChannelId
  | _ => false

/-- The optional after-the-line annotation of a `TextDocumentDecoration`. -/
structure DecorationAfter where
  color : Option String
  backgroundColor : Option String
  contentText : Option String
  linkURL : Option String
deriving DecidableEq, Repr

/-- The fields of a `TextDocumentDecoration` read by `applyDecoration`:
the 0-based start line, an optional background color and an optional
after-annotation. -/
structure TextDocumentDecoration where
  line : Nat
  backgroundColor : Option String
  after : Option DecorationAfter
deriving DecidableEq, Repr

/-- The JavaScript truthiness test on a `string | undefined` value:
`undefined` and `''` are falsy. -/
def truthyStr : Option String → Bool
  | none => false
  | some s => s != ""

/-- A DOM node injected (or already present) at the end of a line
element: the annotation `span`, possibly wrapped in a styled `a` link. -/
inductive DomNode where
  | span (backgroundColor : String) (textContent : String)
  | link (href : String) (color : String) (child : DomNode)
deriving DecidableEq, Repr

/-- The code cell of a blob-page row (the `nextElementSibling` of the
line-number cell): its inline background color (`""` when unset, as
assigning `null` or `''` to `style.backgroundColor` clears it) and its
appended child nodes. -/
structure LineElement where
  backgroundColor : String
  children : List DomNode
deriving DecidableEq, Repr

/-- One row of the hosted blob page: a `td[data-line-number]` cell and
its following code cell (`none` when the line-number cell has no next
element sibling). -/
structure Row where
  dataLineNumber : Nat
  line : Option LineElement
deriving DecidableEq, Repr

/-- The annotation node `applyDecoration` builds for an after-annotation:
a span with the annotation's background color and text (`x || null`
yields the cleared/empty value), wrapped in a link when `linkURL` is
truthy. -/
def afterNode (a : DecorationAfter) : DomNode :=
  let afterSpan := DomNode.span (jsOrEmpty a.backgroundColor) (jsOrEmpty a.contentText)
  if truthyStr a.linkURL then
    DomNode.link (jsOrEmpty a.linkURL) (jsOrEmpty a.color) afterSpan
  else afterSpan

/-- What the disposable returned by `applyDecoration` does on `dispose`:
which line-number the mutated row carries, whether the background
disposable was pushed (it assigns `null`, clearing the color), and the
child index of the injected annotation node when one was appended. -/
structure DisposeSpec where
  ghLine : Nat
  clearBackground : Bool
  removeChildAt : Option Nat
deriving DecidableEq, Repr

/-- The error message of the match-count check in `applyDecoration`
(`lineNumberElements.length !== 1`).  The preceding
`if (!lineNumberElements)` check is dead code — `querySelectorAll`
returns a NodeList, which is always truthy — so both zero matches and
multiple matches reach this message. -/
def matchCountError (gh k : Nat) : String :=
  "Line number " ++ toString gh ++ " matched " ++ toString k ++
    " elements (expected 1)"

/-- The mutation `applyDecoration` performs on the uniquely matched row's
line element, together with the dispose record: sets the background when
the decoration's color is truthy, and appends the annotation node when an
after-annotation is present. -/
def applyToLine (d : TextDocumentDecoration) (line : LineElement) :
    LineElement × DisposeSpec :=
  let clearBg := truthyStr d.backgroundColor
  let line1 :=
    if clearBg then { line with backgroundColor := jsOrEmpty d.backgroundColor }
    else line
  match d.after with
  | some a =>
    ({ line1 with children := line1.children ++ [afterNode a] },
     { ghLine := d.line + 1, clearBackground := clearBg
       removeChildAt := some line1.children.length })
  | none =>
    (line1,
     { ghLine := d.line + 1, clearBackground := clearBg, removeChildAt := none })

/-- Writing the mutated code cell back into the host subtree: the row
the mutation targeted (the unique one matching the queried line number)
receives the new cell, every other row is untouched. -/
def applyRow (gh : Nat) (line2 : LineElement) (r : Row) : Row :=
  if r.dataLineNumber == gh then { r with line := some line2 } else r

/-- `applyDecoration` on a host subtree modelled as its list of rows:
queries the rows whose `data-line-number` equals `line + 1`; errors
(mutating nothing) unless exactly one matches; errors when the matched
cell has no following code cell; otherwise mutates that unique row and
returns the dispose record.  The returned list is the host subtree after
the call (unchanged on every error, since all checks precede all
mutations in the source). -/
def applyDecoration (fileElement : List Row) (d : TextDocumentDecoration) :
    Except String DisposeSpec × List Row :=
  let gh := d.line + 1
  match fileElement.filter (fun r => r.dataLineNumber == gh) with
  | [row] =>
    match row.line with
    | none => (Except.error ("Line " ++ toString gh ++ " is falsy"), fileElement)
    | some line =>
      let (line2, spec) := applyToLine d line
      (Except.ok spec, fileElement.map (applyRow gh line2))
  | ms =>
    (Except.error (matchCountError gh ms.length), fileElement)

/-- The effect of the pushed disposables on the mutated code cell: the
background disposable assigns `null` to `style.backgroundColor` (clearing
it, not restoring the previous value), and the annotation disposable
removes the injected node (identified by the child position it was
appended at). -/
def restoreLine (s : DisposeSpec) (line : LineElement) : LineElement :=
  let line1 :=
    if s.clearBackground then { line with backgroundColor := "" } else line
  match s.removeChildAt with
  | some j => { line1 with children := line1.children.eraseIdx j }
  | none => line1

/-- The dispose effect on one row of the host subtree: only the row the
decoration mutated (the captured `lineElement`) is touched. -/
def disposeRow (s : DisposeSpec) (r : Row) : Row :=
  if r.dataLineNumber == s.ghLine then
    match r.line with
    | none => r
    | some line => { r with line := some (restoreLine s line) }
  else r

/-- Invoking the disposable returned by `applyDecoration` on the host
subtree. -/
def disposeDecoration (fileElement : List Row) (s : DisposeSpec) : List Row :=
  fileElement.map (disposeRow s)

/-- Applying a decoration and immediately invoking the returned
disposable; on an application error the host is returned unchanged. -/
def decorationRoundTrip (fileElement : List Row)
    (d : TextDocumentDecoration) : List Row :=
  match applyDecoration fileElement d with
  | (Except.ok spec, f1) => disposeDecoration f1 spec
  | (Except.error _, f1) => f1

/-! Shared lemmas. -/

/-- When a filter returns a singleton, every member satisfying the
predicate is that element. -/
theorem eq_of_filter_eq_singleton {α : Type} {l : List α} {p : α → Bool} {a : α}
    (h : l.filter p = [a]) : ∀ x ∈ l, p x = true → x = a := by
  intro x hx hpx
  have hmem : x ∈ l.filter p := List.mem_filter.mpr ⟨hx, hpx⟩
  rw [h] at hmem
  simpa using hmem

/-- When a filter returns a singleton, that element satisfies the
predicate. -/
theorem pred_of_filter_eq_singleton {α : Type} {l : List α} {p : α → Bool} {a : α}
    (h : l.filter p = [a]) : p a = true := by
  have hmem : a ∈ l.filter p := by
    rw [h]; exact List.mem_singleton_self a
  exact (List.mem_filter.mp hmem).2

/-- Erasing the child appended at the end of a list restores the list. -/
theorem eraseIdx_append_length {α : Type} (l : List α) (a : α) :
    (l ++ [a]).eraseIdx l.length = l := by
  induction l with
  | nil => rfl
  | cons x t ih => simpa [List.eraseIdx] using ih

/-- Catching around an evaluation that never throws is the plain
predicate. -/
theorem catchToExclude_ok (p : CXPExtensionWithManifest → Bool) :
    catchToExclude (fun x => Except.ok (p x)) = p := by
  funext x
  rfl

/-- The per-extension activation test, characterised: it passes exactly
when the extension is enabled, the manifest is a valid one with an
activation-event list present, and that list contains the wildcard or the
`onLanguage:` event of the active component's language. -/
theorem environmentFilterPredicate_iff (component : Option Component)
    (x : CXPExtensionWithManifest) :
    environmentFilterPredicate component x = true ↔
      (x.isEnabled = true ∧
       ∃ m evs, x.manifest = ManifestOrError.valid m ∧
         m.activationEvents = some evs ∧
         ("*" ∈ evs ∨
          ∃ c, component = some c ∧
            ("onLanguage:" ++ c.document.languageId) ∈ evs)) := by
  obtain ⟨xid, xen, xman⟩ := x
  cases xman with
  | null => simp [environmentFilterPredicate]
  | errorLike e => simp [environmentFilterPredicate]
  | valid m =>
    obtain ⟨aevs, plat⟩ := m
    cases aevs with
    | none => simp [environmentFilterPredicate]
    | some evs =>
      cases component with
      | none =>
        simp [environmentFilterPredicate, List.any_eq_true]
      | some c =>
        simp [environmentFilterPredicate, List.any_eq_true, and_or_left,
          exists_or]

/-- C1: for every environment snapshot and every configured extension in
it, the activation filter includes the extension in its output iff the
extension is enabled, its manifest is present and not an error value, and
the manifest's activation-event list contains `*` or contains
`onLanguage:lang` for the active component's language; with a null
component only the wildcard qualifies, and a disabled extension or one
with an absent or errored manifest is never included. -/
theorem environmentFilter_includes_iff (env : Environment)
    (l : List CXPExtensionWithManifest) (x : CXPExtensionWithManifest)
    (hl : env.extensions = some l) (hx : x ∈ l) :
    x ∈ filteredExtensions env ↔
      (x.isEnabled = true ∧
       ∃ m evs, x.manifest = ManifestOrError.valid m ∧
         m.activationEvents = some evs ∧
         ("*" ∈ evs ∨
          ∃ c, env.component = some c ∧
            ("onLanguage:" ++ c.document.languageId) ∈ evs)) := by
  have hmem : x ∈ filteredExtensions env ↔
      environmentFilterPredicate env.component x = true := by
    simp [filteredExtensions, environmentFilter, environmentFilterWith,
      catchToExclude, hl, List.mem_filter, hx]
  rw [hmem]
  exact environmentFilterPredicate_iff env.component x

/-- C7: an evaluation error while filtering one extension is caught and
treated as excluding that extension; the filter is a total function (it
never raises), and every other extension in the list is evaluated and
included or excluded as usual. -/
theorem environmentFilter_catches_evaluation_errors
    (eval : Option Component → CXPExtensionWithManifest → Except EvaluationError Bool)
    (env : Environment) (l : List CXPExtensionWithManifest)
    (x : CXPExtensionWithManifest) (e : EvaluationError)
    (hl : env.extensions = some l)
    (hx : eval env.component x = Except.error e) :
    ((environmentFilterWith eval env).extensions =
      some (l.filter (catchToExclude (eval env.component)))) ∧
    x ∉ ((environmentFilterWith eval env).extensions).getD [] ∧
    (∀ y b, eval env.component y = Except.ok b →
      (y ∈ ((environmentFilterWith eval env).extensions).getD [] ↔
        y ∈ l ∧ b = true)) := by
  refine ⟨by simp [environmentFilterWith, hl], ?_, ?_⟩
  · simp [environmentFilterWith, hl, List.mem_filter, catchToExclude, hx]
  · intro y b hy
    simp [environmentFilterWith, hl, List.mem_filter, catchToExclude, hy]

/-- C9: the activation filter is deterministic (two calls on the same
snapshot yield equal outputs — it is a pure function of the snapshot) and
idempotent (filtering a filtered snapshot changes nothing). -/
theorem environmentFilter_deterministic_idempotent (env : Environment) :
    environmentFilter env = environmentFilter env ∧
    environmentFilter (environmentFilter env) = environmentFilter env := by
  refine ⟨rfl, ?_⟩
  cases env with
  | mk root component extensions =>
    cases extensions with
    | none => rfl
    | some l =>
      simp [environmentFilter, environmentFilterWith, catchToExclude_ok,
        List.filter_filter]

/-- C10: the activation filter changes only the `extensions` field of the
snapshot; the returned snapshot's root context and active component are
those of the input. -/
theorem environmentFilter_frame (env : Environment) :
    (environmentFilter env).root = env.root ∧
    (environmentFilter env).component = env.component :=
  ⟨rfl, rfl⟩

/-- An extension activated by an `onLanguage:go` event. -/
def wC1Ext : CXPExtensionWithManifest :=
  { id := "x", isEnabled := true
    manifest := ManifestOrError.valid
      { activationEvents := some ["onLanguage:go"]
        platform := { type := "websocket", url := some "wss://h/x" } } }

/-- A snapshot whose active component has language `go` and whose only
configured extension is `wC1Ext`. -/
def wC1Env : Environment :=
  { root := none, component := some { document := { languageId := "go" } }
    extensions := some [wC1Ext] }

/-- Witness for C1 at a concrete snapshot: the `onLanguage:go` extension
is included when the active component's language is `go`. -/
theorem environmentFilter_includes_iff_witness :
    wC1Env.extensions = some [wC1Ext] ∧ wC1Ext ∈ [wC1Ext] ∧
      wC1Ext ∈ filteredExtensions wC1Env :=
  ⟨rfl, List.mem_singleton_self _,
   (environmentFilter_includes_iff wC1Env [wC1Ext] wC1Ext rfl
       (List.mem_singleton_self _)).mpr
     ⟨rfl,
      ⟨{ activationEvents := some ["onLanguage:go"]
         platform := { type := "websocket", url := some "wss://h/x" } },
       ["onLanguage:go"], rfl, rfl,
       Or.inr ⟨{ document := { languageId := "go" } }, rfl, by decide⟩⟩⟩⟩

/-- An evaluation function that throws on the extension with id `bad`
and accepts every other extension. -/
def wC7Eval : Option Component → CXPExtensionWithManifest → Except EvaluationError Bool :=
  fun _ x =>
    if x.id == "bad" then Except.error { message := "boom" } else Except.ok true

/-- The extension whose evaluation throws. -/
def wC7Bad : CXPExtensionWithManifest :=
  { id := "bad", isEnabled := true, manifest := ManifestOrError.null }

/-- An extension whose evaluation succeeds. -/
def wC7Good : CXPExtensionWithManifest :=
  { id := "good", isEnabled := true, manifest := ManifestOrError.null }

/-- A snapshot containing the throwing and the succeeding extension. -/
def wC7Env : Environment :=
  { root := none, component := none, extensions := some [wC7Bad, wC7Good] }

/-- Witness for C7 at a concrete snapshot: the extension whose
evaluation throws is excluded from the output. -/
theorem environmentFilter_catches_evaluation_errors_witness :
    wC7Env.extensions = some [wC7Bad, wC7Good] ∧
    wC7Eval wC7Env.component wC7Bad = Except.error { message := "boom" } ∧
    wC7Bad ∉ ((environmentFilterWith wC7Eval wC7Env).extensions).getD [] :=
  ⟨rfl, rfl,
   (environmentFilter_catches_evaluation_errors wC7Eval wC7Env
       [wC7Bad, wC7Good] wC7Bad { message := "boom" } rfl rfl).2.1⟩

/-- `URLSearchParams.set` followed by `get` of the same key yields the
set value. -/
theorem getParam_setParam_self (ps : List (String × String)) (k v : String) :
    getParam (setParam ps k v) k = some v := by
  induction ps with
  | nil => simp [setParam, getParam]
  | cons p rest ih =>
    by_cases hk : p.fst == k
    · simp [setParam, hk, getParam]
    · simp only [setParam, hk, if_false, Bool.false_eq_true]
      simpa [getParam, List.find?, hk] using ih

/-- Dropping the pairs keyed `k` does not change the first pair found
for a different key. -/
theorem find?_filter_ne_key (rest : List (String × String)) (k k₀ : String)
    (h : k₀ ≠ k) :
    ((rest.filter fun p => p.fst != k).find? fun p => p.fst == k₀) =
      rest.find? fun p => p.fst == k₀ := by
  induction rest with
  | nil => rfl
  | cons p t ih =>
    by_cases hp : p.fst = k
    · have h1 : (p.fst != k) = false := by simp [hp]
      have h2 : (p.fst == k₀) = false := by simp [hp, Ne.symm h]
      simp [List.filter, List.find?, h1, h2, ih]
    · have h1 : (p.fst != k) = true := by simp [hp]
      by_cases hq : p.fst = k₀
      · have h4 : (k₀ != k) = true := by simp [h]
        simp [List.filter, List.find?, h1, hq, h4]
      · have h2 : (p.fst == k₀) = false := by simp [hq]
        simp [List.filter, List.find?, h1, h2, ih]

/-- `URLSearchParams.set` does not change the value read for a different
key. -/
theorem getParam_setParam_other (ps : List (String × String)) (k k₀ v : String)
    (h : k₀ ≠ k) :
    getParam (setParam ps k v) k₀ = getParam ps k₀ := by
  induction ps with
  | nil =>
    have h2 : (k == k₀) = false := by simp [Ne.symm h]
    simp [setParam, getParam, List.find?, h2]
  | cons p rest ih =>
    by_cases hk : p.fst == k
    · have hkeq : p.fst = k := by simpa using hk
      have h2 : (k == k₀) = false := by simp [Ne.symm h]
      simp only [setParam, hk, if_true, getParam, List.find?, h2]
      rw [find?_filter_ne_key rest k k₀ h]
      by_cases hq : p.fst = k₀
      · exact absurd (hkeq.symm.trans hq) (Ne.symm h)
      · have h3 : (p.fst == k₀) = false := by simp [hq]
        simp [h3]
    · simp only [setParam, hk, if_false, Bool.false_eq_true]
      by_cases hq : p.fst = k₀
      · simp [getParam, List.find?, hq]
      · have h3 : (p.fst == k₀) = false := by simp [hq]
        simp only [getParam, List.find?, h3]
        exact ih

/-- The JavaScript `x || ''` equals null-defaulting to the empty
string. -/
theorem jsOrEmpty_eq_getD (o : Option String) : jsOrEmpty o = o.getD "" := by
  cases o with
  | none => rfl
  | some s => by_cases hs : s = "" <;> simp [jsOrEmpty, hs]

/-- C2: the transport factory fails with a descriptive error when the
manifest is null (no-manifest), when the manifest is an error value
(invalid-manifest, including the inner message), or when the platform
kind is none of websocket, tcp or bundle (unsupported-platform); in each
of these cases no resource-opening action is produced — a successful
result exists only for a valid manifest of a recognised platform kind. -/
theorem createMessageTransports_error_cases (url : URL)
    (x : CXPExtensionWithManifest) (options : ClientOptions) :
    (x.manifest = ManifestOrError.null →
      createMessageTransports url x options =
        Except.error ("unable to connect to extension " ++
          jsonStringify x.id ++ ": no manifest found")) ∧
    (∀ e, x.manifest = ManifestOrError.errorLike e →
      createMessageTransports url x options =
        Except.error ("unable to connect to extension " ++
          jsonStringify x.id ++ ": invalid manifest: " ++ e.message)) ∧
    (∀ m, x.manifest = ManifestOrError.valid m →
      m.platform.type ≠ "websocket" → m.platform.type ≠ "tcp" →
      m.platform.type ≠ "bundle" →
      createMessageTransports url x options =
        Except.error ("Unable to connect to CXP extension " ++
          jsonStringify x.id ++ ": type " ++ jsonStringify m.platform.type ++
          " is not supported")) ∧
    (∀ a, createMessageTransports url x options = Except.ok a →
      ∃ m, x.manifest = ManifestOrError.valid m ∧
        (m.platform.type = "websocket" ∨ m.platform.type = "tcp" ∨
         m.platform.type = "bundle")) := by
  refine ⟨?_, ?_, ?_, ?_⟩
  · intro h
    simp [createMessageTransports, h]
  · intro e h
    simp [createMessageTransports, h]
  · intro m h h1 h2 h3
    have b1 : (m.platform.type == "websocket") = false := by simp [h1]
    have b2 : (m.platform.type == "tcp") = false := by simp [h2]
    have b3 : (m.platform.type == "bundle") = false := by simp [h3]
    simp [createMessageTransports, h, b1, b2, b3]
  · intro a ha
    cases hman : x.manifest with
    | null => simp [createMessageTransports, hman] at ha
    | errorLike e => simp [createMessageTransports, hman] at ha
    | valid m =>
      refine ⟨m, rfl, ?_⟩
      by_cases c1 : m.platform.type = "websocket"
      · exact Or.inl c1
      by_cases c2 : m.platform.type = "tcp"
      · exact Or.inr (Or.inl c2)
      by_cases c3 : m.platform.type = "bundle"
      · exact Or.inr (Or.inr c3)
      have b1 : (m.platform.type == "websocket") = false := by simp [c1]
      have b2 : (m.platform.type == "tcp") = false := by simp [c2]
      have b3 : (m.platform.type == "bundle") = false := by simp [c3]
      simp [createMessageTransports, hman, b1, b2, b3] at ha

/-- The configured Sourcegraph base URL used by the concrete witnesses. -/
def wURL : URL :=
  { protocol := "https:", host := "sourcegraph.test", pathname := "/"
    searchParams := [] }

/-- The connection options used by the concrete witnesses. -/
def wOpts : ClientOptions := { root := some "git://repo?rev" }

/-- An extension with a null manifest. -/
def wC2NoMan : CXPExtensionWithManifest :=
  { id := "no-man", isEnabled := true, manifest := ManifestOrError.null }

/-- An extension whose manifest is an error value. -/
def wC2BadMan : CXPExtensionWithManifest :=
  { id := "bad-man", isEnabled := true
    manifest := ManifestOrError.errorLike { message := "parse failed" } }

/-- An extension whose manifest declares the unsupported platform kind
`carrierpigeon`. -/
def wC2Pigeon : CXPExtensionWithManifest :=
  { id := "pigeon", isEnabled := true
    manifest := ManifestOrError.valid
      { activationEvents := some ["*"]
        platform := { type := "carrierpigeon", url := none } } }

/-- Witness for C2 at concrete extensions: the three failure cases reject
with their respective messages. -/
theorem createMessageTransports_error_cases_witness :
    wC2NoMan.manifest = ManifestOrError.null ∧
    wC2BadMan.manifest = ManifestOrError.errorLike { message := "parse failed" } ∧
    createMessageTransports wURL wC2NoMan wOpts =
      Except.error "unable to connect to extension \"no-man\": no manifest found" ∧
    createMessageTransports wURL wC2BadMan wOpts =
      Except.error
        "unable to connect to extension \"bad-man\": invalid manifest: parse failed" ∧
    createMessageTransports wURL wC2Pigeon wOpts =
      Except.error
        "Unable to connect to CXP extension \"pigeon\": type \"carrierpigeon\" is not supported" :=
  ⟨rfl, rfl,
   (createMessageTransports_error_cases wURL wC2NoMan wOpts).1 rfl,
   (createMessageTransports_error_cases wURL wC2BadMan wOpts).2.1
     { message := "parse failed" } rfl,
   (createMessageTransports_error_cases wURL wC2Pigeon wOpts).2.2.1
     { activationEvents := some ["*"]
       platform := { type := "carrierpigeon", url := none } }
     rfl (by decide) (by decide) (by decide)⟩

/-- C3: for a tcp-kind manifest the factory opens a WebSocket to the URL
built from the configured base origin by switching `https:` to `wss:`
(anything else to `ws:`), fixing the path to the `.api/lsp` bridge
endpoint, keeping the host, and setting the query parameters `mode` to
the extension id and `rootUri` to the connection's root URI or the empty
string when the root is absent. -/
theorem createMessageTransports_tcp_bridge_url (base : URL)
    (x : CXPExtensionWithManifest) (options : ClientOptions)
    (m : SourcegraphExtension)
    (hm : x.manifest = ManifestOrError.valid m)
    (ht : m.platform.type = "tcp") :
    createMessageTransports base x options =
      Except.ok (TransportAction.webSocket
        (bridgeWebSocketURL base x.id options.root)) ∧
    (bridgeWebSocketURL base x.id options.root).protocol =
      (if base.protocol = "https:" then "wss:" else "ws:") ∧
    (bridgeWebSocketURL base x.id options.root).pathname = ".api/lsp" ∧
    (bridgeWebSocketURL base x.id options.root).host = base.host ∧
    getParam (bridgeWebSocketURL base x.id options.root).searchParams "mode" =
      some x.id ∧
    getParam (bridgeWebSocketURL base x.id options.root).searchParams "rootUri" =
      some (options.root.getD "") := by
  refine ⟨?_, ?_, rfl, rfl, ?_, ?_⟩
  · have b1 : (m.platform.type == "websocket") = false := by simp [ht]
    have b2 : (m.platform.type == "tcp") = true := by simp [ht]
    simp [createMessageTransports, hm, b1, b2]
  · by_cases hp : base.protocol = "https:" <;> simp [bridgeWebSocketURL, hp]
  · show getParam (setParam (setParam base.searchParams "mode" x.id)
      "rootUri" (jsOrEmpty options.root)) "mode" = some x.id
    rw [getParam_setParam_other _ _ _ _ (by decide)]
    exact getParam_setParam_self base.searchParams "mode" x.id
  · show getParam (setParam (setParam base.searchParams "mode" x.id)
      "rootUri" (jsOrEmpty options.root)) "rootUri" = some (options.root.getD "")
    rw [getParam_setParam_self, jsOrEmpty_eq_getD]

/-- The tcp-kind extension used by the C3 witness. -/
def wC3Manifest : SourcegraphExtension :=
  { activationEvents := some ["*"]
    platform := { type := "tcp", url := none } }

/-- An extension whose manifest declares a tcp platform. -/
def wC3Tcp : CXPExtensionWithManifest :=
  { id := "lang-go", isEnabled := true
    manifest := ManifestOrError.valid wC3Manifest }

/-- Witness for C3 at a concrete tcp extension: the factory opens a
WebSocket to the bridged URL, and the URL pieces are as specified. -/
theorem createMessageTransports_tcp_bridge_url_witness :
    wC3Tcp.manifest = ManifestOrError.valid wC3Manifest ∧
    wC3Manifest.platform.type = "tcp" ∧
    createMessageTransports wURL wC3Tcp wOpts =
      Except.ok (TransportAction.webSocket
        (bridgeWebSocketURL wURL wC3Tcp.id wOpts.root)) ∧
    getParam (bridgeWebSocketURL wURL wC3Tcp.id wOpts.root).searchParams "mode" =
      some wC3Tcp.id :=
  ⟨rfl, rfl,
   (createMessageTransports_tcp_bridge_url wURL wC3Tcp wOpts wC3Manifest
       rfl rfl).1,
   (createMessageTransports_tcp_bridge_url wURL wC3Tcp wOpts wC3Manifest
       rfl rfl).2.2.2.2.1⟩

/-- The session part of a process trace opens no control channel and
posts only on the control channel. -/
theorem sessionEffects_control_free (events : List RelayEvent) (fresh : Nat) :
    (∀ e ∈ sessionEffects events fresh, e.isControlConnect = false) ∧
    (∀ ch id, ChromeEffect.postMessage ch id ∈ sessionEffects events fresh →
      ch = controlChannelId) := by
  induction events generalizing fresh with
  | nil => simp [sessionEffects]
  | cons ev rest ih =>
    cases ev with
    | request id =>
      refine ⟨?_, ?_⟩
      · intro e he
        rcases List.mem_cons.mp he with rfl | he'
        · rfl
        · exact (ih fresh).1 e he'
      · intro ch id' hmem
        rcases List.mem_cons.mp hmem with heq | hmem'
        · cases heq
          rfl
        · exact (ih fresh).2 ch id' hmem'
    | response r =>
      cases hr : r.payload with
      | portName p =>
        refine ⟨?_, ?_⟩
        · intro e he
          simp only [sessionEffects, hr] at he
          rcases List.mem_cons.mp he with rfl | he'
          · simp [ChromeEffect.isControlConnect, controlChannelId]
          · exact (ih (fresh + 1)).1 e he'
        · intro ch id' hmem
          simp only [sessionEffects, hr] at hmem
          rcases List.mem_cons.mp hmem with heq | hmem'
          · cases heq
          · exact (ih (fresh + 1)).2 ch id' hmem'
      | error msg =>
        simpa [sessionEffects, hr] using ih fresh

/-- C8: exactly one control channel per process lifetime — the trace of
chrome-port effects opens the control channel once, as its very first
effect (before any transport request), every transport request
throughout the lifetime is posted on that channel, and no later connect
opens another control channel. -/
theorem control_channel_unique (events : List RelayEvent) :
    (processEffects events).head? =
      some (ChromeEffect.connect controlChannelId "CONTROL") ∧
    (processEffects events).countP ChromeEffect.isControlConnect = 1 ∧
    (∀ ch id, ChromeEffect.postMessage ch id ∈ processEffects events →
      ch = controlChannelId) := by
  refine ⟨rfl, ?_, ?_⟩
  · have hzero :
        (sessionEffects events 0).countP ChromeEffect.isControlConnect = 0 := by
      rw [List.countP_eq_zero]
      intro e he
      simpa using (sessionEffects_control_free events 0).1 e he
    simp [processEffects, moduleInitEffects, List.countP_append, hzero,
      List.countP_cons, ChromeEffect.isControlConnect, controlChannelId]
  · intro ch id hmem
    rcases List.mem_append.mp hmem with hinit | hsess
    · simp [moduleInitEffects] at hinit
    · exact (sessionEffects_control_free events 0).2 ch id hsess

/-- The control-channel trace with two concurrent activation requests
(`a` then `b`) and a single response, the broker's answer to `b`. -/
def wC4Trace : List RelayEvent :=
  [RelayEvent.request "a", RelayEvent.request "b",
   RelayEvent.response
     { intendedFor := "b", payload := RelayPayload.portName "port-b" }]

/-- C4 fails on the code: with requests for extensions `a` and `b` both
in flight, the single response the broker meant for `b` settles the
promise of the request for `a` as well — every registered listener fires
on every inbound message and the code carries no correlation by extension
id or request token. -/
theorem relay_response_settles_unrelated_request :
    wC4Trace[0]? = some (RelayEvent.request "a") ∧
    wC4Trace[1]? = some (RelayEvent.request "b") ∧
    settlement wC4Trace 0 =
      some { intendedFor := "b", payload := RelayPayload.portName "port-b" } ∧
    settlement wC4Trace 1 =
      some { intendedFor := "b", payload := RelayPayload.portName "port-b" } ∧
    (settlement wC4Trace 0).map RelayResponse.intendedFor ≠ some "a" := by
  refine ⟨rfl, rfl, rfl, rfl, ?_⟩
  decide

/-- Mapping a function that fixes every member of a list fixes the
list. -/
theorem map_id_of_mem {α : Type} (l : List α) (g : α → α)
    (h : ∀ a ∈ l, g a = a) : l.map g = l := by
  induction l with
  | nil => rfl
  | cons x t ih =>
    rw [List.map_cons, h x (List.mem_cons_self x t),
      ih fun a ha => h a (List.mem_cons_of_mem x ha)]

/-- C6: whenever the number of line-number cells matching the
decoration's `line + 1` differs from one (zero matches or several),
`applyDecoration` fails with the match-count error naming that number and
returns the host subtree unchanged. -/
theorem applyDecoration_match_count_error (f : List Row)
    (d : TextDocumentDecoration)
    (h : (f.filter fun r => r.dataLineNumber == d.line + 1).length ≠ 1) :
    applyDecoration f d =
      (Except.error (matchCountError (d.line + 1)
        (f.filter fun r => r.dataLineNumber == d.line + 1).length), f) := by
  rcases hms : f.filter fun r => r.dataLineNumber == d.line + 1 with
    _ | ⟨r1, _ | ⟨r2, t⟩⟩
  · simp [applyDecoration, hms]
  · exact absurd (by rw [hms]; rfl) h
  · simp [applyDecoration, hms]

/-- A host subtree with two rows claiming line number 5. -/
def wC6Host : List Row :=
  [{ dataLineNumber := 5, line := some { backgroundColor := "", children := [] } },
   { dataLineNumber := 5, line := some { backgroundColor := "", children := [] } }]

/-- A decoration for 0-based line 4, i.e. displayed line 5. -/
def wC6Deco : TextDocumentDecoration :=
  { line := 4, backgroundColor := some "blue", after := none }

/-- Witness for C6 at a concrete ambiguous host: two matches fail with
the match-count error and mutate nothing. -/
theorem applyDecoration_match_count_error_witness :
    (wC6Host.filter fun r => r.dataLineNumber == wC6Deco.line + 1).length ≠ 1 ∧
    applyDecoration wC6Host wC6Deco =
      (Except.error (matchCountError 5 2), wC6Host) :=
  ⟨by decide, applyDecoration_match_count_error wC6Host wC6Deco (by decide)⟩

/-- C5 fails on the code: the disposable clears the line's background
instead of restoring its prior value.  At a host whose target line is
initially `red` and a decoration painting it `blue`, applying and then
disposing leaves the background empty, so the subtree is not restored to
its pre-application state. -/
theorem applyDecoration_roundTrip_counterexample :
    (applyDecoration
        [{ dataLineNumber := 1
           line := some { backgroundColor := "red", children := [] } }]
        { line := 0, backgroundColor := some "blue", after := none }).fst =
      Except.ok { ghLine := 1, clearBackground := true, removeChildAt := none } ∧
    decorationRoundTrip
        [{ dataLineNumber := 1
           line := some { backgroundColor := "red", children := [] } }]
        { line := 0, backgroundColor := some "blue", after := none } =
      [{ dataLineNumber := 1
         line := some { backgroundColor := "", children := [] } }] ∧
    decorationRoundTrip
        [{ dataLineNumber := 1
           line := some { backgroundColor := "red", children := [] } }]
        { line := 0, backgroundColor := some "blue", after := none } ≠
      [{ dataLineNumber := 1
         line := some { backgroundColor := "red", children := [] } }] := by
  refine ⟨rfl, rfl, ?_⟩
  decide

/-- C5 amended: applying a decoration and invoking the returned
disposable removes the injected annotation node and clears the target
line's background color; the host subtree is restored exactly whenever
the line's pre-application background color was empty (the claim's
non-empty initial colors are lost, as the counterexample shows). -/
theorem applyDecoration_roundTrip_restores (f : List Row)
    (d : TextDocumentDecoration) (row : Row) (line : LineElement)
    (hm : f.filter (fun r => r.dataLineNumber == d.line + 1) = [row])
    (hline : row.line = some line)
    (hbg : line.backgroundColor = "") :
    decorationRoundTrip f d = f := by
  obtain ⟨rn, rline⟩ := row
  obtain ⟨lbg, lch⟩ := line
  replace hline : rline = some (LineElement.mk lbg lch) := hline
  replace hbg : lbg = "" := hbg
  subst hbg
  subst hline
  have hprow : (rn == d.line + 1) = true := by
    have h := pred_of_filter_eq_singleton hm
    simpa using h
  have huniq := eq_of_filter_eq_singleton hm
  have hpoint : ∀ spec line2, spec.ghLine = d.line + 1 →
      restoreLine spec line2 = LineElement.mk "" lch →
      ∀ r ∈ f, disposeRow spec (applyRow (d.line + 1) line2 r) = r := by
    intro spec line2 hgh hres r hr
    by_cases hp : (r.dataLineNumber == d.line + 1) = true
    · rw [huniq r hr hp]
      simp [applyRow, disposeRow, hprow, hgh, hres]
    · have hp' : (r.dataLineNumber == d.line + 1) = false := by
        simpa using hp
      simp [applyRow, disposeRow, hgh, hp']
  cases hafter : d.after with
  | none =>
    cases htr : truthyStr d.backgroundColor with
    | false =>
      simp only [decorationRoundTrip, applyDecoration, hm, applyToLine,
        hafter, htr, if_false, Bool.false_eq_true, disposeDecoration,
        List.map_map]
      exact map_id_of_mem f _ (hpoint _ _ rfl (by simp [restoreLine]))
    | true =>
      simp only [decorationRoundTrip, applyDecoration, hm, applyToLine,
        hafter, htr, if_true, disposeDecoration, List.map_map]
      exact map_id_of_mem f _ (hpoint _ _ rfl (by simp [restoreLine]))
  | some a =>
    cases htr : truthyStr d.backgroundColor with
    | false =>
      simp only [decorationRoundTrip, applyDecoration, hm, applyToLine,
        hafter, htr, if_false, Bool.false_eq_true, disposeDecoration,
        List.map_map]
      exact map_id_of_mem f _
        (hpoint _ _ rfl (by simp [restoreLine, eraseIdx_append_length]))
    | true =>
      simp only [decorationRoundTrip, applyDecoration, hm, applyToLine,
        hafter, htr, if_true, disposeDecoration, List.map_map]
      exact map_id_of_mem f _
        (hpoint _ _ rfl (by simp [restoreLine, eraseIdx_append_length]))

/-- A host subtree whose line 3 cell has no inline background color. -/
def wC5Host : List Row :=
  [{ dataLineNumber := 2
     line := some { backgroundColor := "x", children := [] } },
   { dataLineNumber := 3
     line := some { backgroundColor := "", children := [DomNode.span "s" "old"] } }]

/-- A decoration painting line 2 (displayed 3) and appending a linked
annotation. -/
def wC5Deco : TextDocumentDecoration :=
  { line := 2, backgroundColor := some "blue"
    after := some { color := some "gray", backgroundColor := none
                    contentText := some "note", linkURL := some "https://l" } }

/-- Witness for the amended C5 at a concrete host: with an initially
empty background the round trip restores the subtree exactly. -/
theorem applyDecoration_roundTrip_restores_witness :
    wC5Host.filter (fun r => r.dataLineNumber == wC5Deco.line + 1) =
      [{ dataLineNumber := 3
         line := some { backgroundColor := "", children := [DomNode.span "s" "old"] } }] ∧
    decorationRoundTrip wC5Host wC5Deco = wC5Host :=
  ⟨by decide,
   applyDecoration_roundTrip_restores wC5Host wC5Deco
     { dataLineNumber := 3
       line := some { backgroundColor := "", children := [DomNode.span "s" "old"] } }
     { backgroundColor := "", children := [DomNode.span "s" "old"] }
     (by decide) rfl rfl⟩

end Cxp
